import Mathlib

/-!
DOMUIThumbnailSource: request dispatch and completion correlation.

A shallow embedding of `chrome/browser/dom_ui/dom_ui_thumbnail_source.cc`.

The object's member variables (`pending_requests_`, `default_thumbnail_`,
`cancelable_consumer_`) are fields of `Gateway`.  Calls that leave the object
(`SendResponse`, `LoadImageResourceBytes`, the lookups issued to the
thumbnail store and to the history service) are recorded in observation
fields of the same record, in the order in which the code performs them.
What the collaborators answer on one `StartDataRequest` call is the `Env`
argument of that call.
-/

namespace DOMUIThumbnailSource

/-- The contents of a `RefCountedBytes` (`std::vector<unsigned char>`). -/
abbrev Bytes := List Nat

/-- Values of `ThumbnailStore::GetStatus`. -/
inductive GetStatus
  | SUCCESS
  | FAIL
  | ASYNC
  deriving DecidableEq

/-- One `SendResponse(request_id, data)` call; `data = none` is a NULL pointer. -/
structure Response where
  request_id : Int
  data : Option Bytes
  deriving DecidableEq

/-- Key of the client-data side channel: the `HistoryService*` (NULL is `none`)
and the `HistoryService::Handle`. -/
abbrev ConsumerKey := Option Nat × Int

/-- Member variables of `DOMUIThumbnailSource` together with the record of the
calls it has made to its collaborators. -/
structure Gateway where
  /-- Member `std::set<int> pending_requests_`. -/
  pending_requests_ : Finset Int
  /-- Member `scoped_refptr<RefCountedBytes> default_thumbnail_`; `none` is NULL. -/
  default_thumbnail_ : Option Bytes
  /-- Member `cancelable_consumer_`: client data attached to history requests. -/
  cancelable_consumer_ : List (ConsumerKey × Int)
  /-- Every `SendResponse` call made so far, oldest first. -/
  responses : List Response
  /-- Number of `LoadImageResourceBytes(IDR_DEFAULT_THUMBNAIL, ..)` calls so far. -/
  loads : Nat
  /-- Every `store_->GetPageThumbnail(url, &data)` call so far. -/
  storeLookups : List String
  /-- Every `store_->GetPageThumbnailAsync(url, request_id, cb)` call so far. -/
  asyncLookups : List (String × Int)
  /-- Every `hs->GetPageThumbnail(url, ..)` call so far, with the service called. -/
  historyLookups : List (Nat × String)
  deriving DecidableEq

/-- What the collaborators answer during one `StartDataRequest` call. -/
structure Env where
  /-- Value of `CommandLine::ForCurrentProcess()->HasSwitch(switches::kThumbnailStore)`. -/
  HasSwitch : Bool
  /-- Status returned by `store_->GetPageThumbnail`. -/
  res : GetStatus
  /-- What `store_->GetPageThumbnail` left in the out-parameter `data`
  (initialised to NULL by the caller). -/
  data : Option Bytes
  /-- Whether `store_->GetPageThumbnailAsync` runs the callback before it
  returns (`some payload`) or leaves it for later (`none`). -/
  callback : Option (Option Bytes)
  /-- Value of `profile_->GetHistoryService(Profile::EXPLICIT_ACCESS)`. -/
  hs : Option Nat
  /-- Handle returned by `hs->GetPageThumbnail`. -/
  handle : Int
  deriving DecidableEq

/-- Modelled from the spec: `cancelable_consumer_.SetClientData(hs, handle, id)`,
the attach half of the side channel "to attach/retrieve arbitrary data (the
requestId) keyed by (service-instance, handle)"; the class
`CancelableRequestConsumer` is not among the sources. -/
def SetClientData (m : List (ConsumerKey × Int)) (hs : Option Nat) (handle : Int)
    (request_id : Int) : List (ConsumerKey × Int) :=
  ((hs, handle), request_id) :: m.filter (fun e => decide (e.1 ≠ (hs, handle)))

/-- Modelled from the spec: `cancelable_consumer_.GetClientData(hs, handle)`,
the retrieve half of the same side channel; a key with nothing attached
yields the zero request id. -/
def GetClientData (m : List (ConsumerKey × Int)) (hs : Option Nat) (handle : Int) : Int :=
  match m.find? (fun e => decide (e.1 = (hs, handle))) with
  | some e => e.2
  | none => 0

/-- The state of a freshly constructed object: nothing pending, no default
thumbnail, nothing sent. -/
def init : Gateway :=
  { pending_requests_ := ∅
    default_thumbnail_ := none
    cancelable_consumer_ := []
    responses := []
    loads := 0
    storeLookups := []
    asyncLookups := []
    historyLookups := [] }

/-- `SendResponse(request_id, data)`: hands one response to the data manager. -/
def SendResponse (s : Gateway) (request_id : Int) (data : Option Bytes) : Gateway :=
  { s with responses := s.responses ++ [⟨request_id, data⟩] }

/-- The test `data.get() && !data->data.empty()`. -/
def hasData (data : Option Bytes) : Bool :=
  match data with
  | some d => !d.isEmpty
  | none => false

/-- `DOMUIThumbnailSource::ReturnData(request_id, data)`.  `loader k` is what
`LoadImageResourceBytes` writes on its call number `k` (counting from 0). -/
def ReturnData (loader : Nat → Bytes) (s : Gateway) (request_id : Int)
    (data : Option Bytes) : Gateway :=
  let s := { s with pending_requests_ := s.pending_requests_.erase request_id }
  if hasData data then
    SendResponse s request_id data
  else
    let s :=
      if s.default_thumbnail_.isNone then
        { s with default_thumbnail_ := some (loader s.loads), loads := s.loads + 1 }
      else s
    SendResponse s request_id s.default_thumbnail_

/-- `DOMUIThumbnailSource::OnThumbnailDataAvailable(request_handle, data)`; `hs`
is what `profile_->GetHistoryService(Profile::EXPLICIT_ACCESS)` returns. -/
def OnThumbnailDataAvailable (loader : Nat → Bytes) (s : Gateway) (hs : Option Nat)
    (request_handle : Int) (data : Option Bytes) : Gateway :=
  let request_id := GetClientData s.cancelable_consumer_ hs request_handle
  if hasData data then
    SendResponse s request_id data
  else
    let s :=
      if s.default_thumbnail_.isNone then
        { s with default_thumbnail_ := some (loader s.loads), loads := s.loads + 1 }
      else s
    SendResponse s request_id s.default_thumbnail_

/-- `DOMUIThumbnailSource::StartDataRequest(path, request_id)`. -/
def StartDataRequest (loader : Nat → Bytes) (s : Gateway) (path : String)
    (request_id : Int) (env : Env) : Gateway :=
  if env.HasSwitch then
    let s := { s with storeLookups := s.storeLookups ++ [path] }
    match env.res with
    | GetStatus.SUCCESS => SendResponse s request_id env.data
    | GetStatus.FAIL =>
      let s :=
        if s.default_thumbnail_.isNone then
          { s with default_thumbnail_ := some (loader s.loads), loads := s.loads + 1 }
        else s
      SendResponse s request_id s.default_thumbnail_
    | GetStatus.ASYNC =>
      let s := { s with pending_requests_ := insert request_id s.pending_requests_ }
      let s := { s with asyncLookups := s.asyncLookups ++ [(path, request_id)] }
      match env.callback with
      | some payload => ReturnData loader s request_id payload
      | none => s
  else
    match env.hs with
    | some p =>
      let s := { s with historyLookups := s.historyLookups ++ [(p, path)] }
      { s with cancelable_consumer_ :=
                 SetClientData s.cancelable_consumer_ (some p) env.handle request_id }
    | none => SendResponse s request_id none

/-- One call into the object from outside. -/
inductive Call
  | start (path : String) (request_id : Int) (env : Env)
  | returnData (request_id : Int) (data : Option Bytes)
  | thumbnailAvailable (hs : Option Nat) (request_handle : Int) (data : Option Bytes)
  deriving DecidableEq

/-- The effect of one call. -/
def step (loader : Nat → Bytes) (s : Gateway) : Call → Gateway
  | Call.start path request_id env => StartDataRequest loader s path request_id env
  | Call.returnData request_id data => ReturnData loader s request_id data
  | Call.thumbnailAvailable hs h data => OnThumbnailDataAvailable loader s hs h data

/-- The effect of a finite sequence of calls, first call first. -/
def run (loader : Nat → Bytes) (s : Gateway) (calls : List Call) : Gateway :=
  calls.foldl (step loader) s

/-- The default image bytes as seen from state `s`: the memoized buffer if one
exists, otherwise what the resource loader returns on its next call. -/
def defaultImage (loader : Nat → Bytes) (s : Gateway) : Bytes :=
  match s.default_thumbnail_ with
  | some d => d
  | none => loader s.loads

/-- The responses sent during one call made in state `s`. -/
def emitted (loader : Nat → Bytes) (s : Gateway) (c : Call) : List Response :=
  (step loader s c).responses.drop s.responses.length

/-- Whether a call takes a branch that answers with the default thumbnail:
a store FAIL, or a completion (deferred or run inside `GetPageThumbnailAsync`)
whose payload is NULL or empty. -/
def needsFallback : Call → Bool
  | Call.start _ _ env =>
    env.HasSwitch &&
      (match env.res with
       | GetStatus.SUCCESS => false
       | GetStatus.FAIL => true
       | GetStatus.ASYNC =>
         match env.callback with
         | some payload => !hasData payload
         | none => false)
  | Call.returnData _ data => !hasData data
  | Call.thumbnailAvailable _ _ data => !hasData data

/-- The request id under which a call made in state `s` answers. -/
def answersFor (s : Gateway) : Call → Int
  | Call.start _ request_id _ => request_id
  | Call.returnData request_id _ => request_id
  | Call.thumbnailAvailable hs h _ => GetClientData s.cancelable_consumer_ hs h

/-- Number of `SendResponse` calls carrying request id `r`. -/
def countResponses (r : Int) (s : Gateway) : Nat :=
  s.responses.countP (fun x => decide (x.request_id = r))

/-- Whether a call is a `StartDataRequest` invocation for request id `r`. -/
def isStartFor (r : Int) : Call → Bool
  | Call.start _ request_id _ => decide (request_id = r)
  | _ => false

/-- Number of `StartDataRequest` invocations made with request id `r`. -/
def countStarts (r : Int) (calls : List Call) : Nat :=
  calls.countP (isStartFor r)

/-- Executions in which each backend runs its completion callback exactly once
for each asynchronous lookup it accepted.  `owedStore` lists the request ids
for which the thumbnail store still owes a `ReturnData`, `owedHistory` the
history requests (service, handle, attached request id) for which the history
service still owes an `OnThumbnailDataAvailable`.  A callback is delivered
only when owed and settles one debt; nothing is owed at the end.  A history
handle identifies its request: the service does not hand out a handle that it
still owes a callback for, and the callback is delivered while the profile
returns the service that accepted the lookup. -/
def exactlyOnce (owedStore : List Int) (owedHistory : List (ConsumerKey × Int)) :
    List Call → Bool
  | [] => owedStore.isEmpty && owedHistory.isEmpty
  | Call.start _ request_id env :: rest =>
    if env.HasSwitch then
      match env.res, env.callback with
      | GetStatus.ASYNC, none => exactlyOnce (request_id :: owedStore) owedHistory rest
      | _, _ => exactlyOnce owedStore owedHistory rest
    else
      match env.hs with
      | some p =>
        !(owedHistory.any (fun e => decide (e.1 = (some p, env.handle)))) &&
          exactlyOnce owedStore (((some p, env.handle), request_id) :: owedHistory) rest
      | none => exactlyOnce owedStore owedHistory rest
  | Call.returnData request_id _ :: rest =>
    owedStore.contains request_id &&
      exactlyOnce (owedStore.erase request_id) owedHistory rest
  | Call.thumbnailAvailable hs h _ :: rest =>
    match owedHistory.find? (fun e => decide (e.1 = (hs, h))) with
    | some _ =>
      exactlyOnce owedStore (owedHistory.eraseP (fun e => decide (e.1 = (hs, h)))) rest
    | none => false

/-- `DOMUIThumbnailSource::~DOMUIThumbnailSource()`: the set of request ids the
destructor hands to `store_->CancelPendingRequests`. -/
def destructor (s : Gateway) : Finset Int :=
  s.pending_requests_

/-- The store lookups whose `ReturnData` is still owed after one more call:
an ASYNC lookup whose callback is left for later adds its request id, a
`ReturnData` call settles one lookup for its request id. -/
def owedAfterCall (owed : List Int) : Call → List Int
  | Call.start _ request_id env =>
    if env.HasSwitch then
      match env.res, env.callback with
      | GetStatus.ASYNC, none => request_id :: owed
      | _, _ => owed
    else owed
  | Call.returnData request_id _ => owed.erase request_id
  | Call.thumbnailAvailable _ _ _ => owed

/-- The store lookups that took the ASYNC branch and whose `ReturnData` has
not run yet, after a sequence of calls that started with `owed` outstanding. -/
def outstandingFrom (owed : List Int) (calls : List Call) : List Int :=
  calls.foldl owedAfterCall owed

/-- Request ids are unique among concurrently outstanding requests: no
`StartDataRequest` is made with an id for which a `ReturnData` is still owed. -/
def uniqueIdsFrom (owed : List Int) : List Call → Bool
  | [] => true
  | c :: rest =>
    (match c with
     | Call.start _ request_id _ => !(owed.contains request_id)
     | _ => true) &&
      uniqueIdsFrom (owedAfterCall owed c) rest

/-- The thumbnail store is selected at every `StartDataRequest` of the sequence. -/
def storeSelected (calls : List Call) : Bool :=
  calls.all (fun c =>
    match c with
    | Call.start _ _ env => env.HasSwitch
    | _ => true)

/-- The history path is selected at every `StartDataRequest` of the sequence. -/
def historySelected (calls : List Call) : Bool :=
  calls.all (fun c =>
    match c with
    | Call.start _ _ env => !env.HasSwitch
    | _ => true)

/-- Whether a call attaches client data under the key `k`: a `StartDataRequest`
on the history path whose service and returned handle make up `k`. -/
def attachesTo (k : ConsumerKey) : Call → Bool
  | Call.start _ _ env =>
    !env.HasSwitch && env.hs.isSome && decide ((env.hs, env.handle) = k)
  | _ => false

/-- The two backends a request can be routed to. -/
inductive Backend
  | PRIMARY
  | LEGACY
  deriving DecidableEq

/-- The backend a `StartDataRequest` call went to, read off the calls it made:
the thumbnail store if `store_->GetPageThumbnail` was called, the history
path otherwise. -/
def routedTo (loader : Nat → Bytes) (s : Gateway) (path : String) (request_id : Int)
    (env : Env) : Backend :=
  if (StartDataRequest loader s path request_id env).storeLookups.length =
      s.storeLookups.length + 1 then Backend.PRIMARY
  else Backend.LEGACY

/-- The shared completion path in the words of the spec (4.4, step 4):
"tracker.remove(requestId), then: payload present and non-empty: emit
Response(requestId, payload); payload absent or empty: emit
Response(requestId, DefaultImageCache.get())", where the first `get` loads
and memoizes and later ones return the memoized buffer. -/
def specCompletion (loader : Nat → Bytes) (s : Gateway) (request_id : Int)
    (payload : Option Bytes) : Gateway :=
  let s := { s with pending_requests_ := s.pending_requests_.erase request_id }
  match payload with
  | some (b :: bs) => SendResponse s request_id (some (b :: bs))
  | _ =>
    match s.default_thumbnail_ with
    | some d => SendResponse s request_id (some d)
    | none =>
      SendResponse
        { s with default_thumbnail_ := some (loader s.loads), loads := s.loads + 1 }
        request_id (some (loader s.loads))

/-! Responses on each branch. -/

/-- C2: with the thumbnail store selected, a SUCCESS lookup that delivers the
buffer `b` (empty or not) sends exactly one response, `(r, b)` unchanged; the
default thumbnail is neither loaded nor substituted. -/
theorem hit_sends_backend_bytes (loader : Nat → Bytes) (s : Gateway) (path : String)
    (r : Int) (env : Env) (b : Bytes)
    (hswitch : env.HasSwitch = true) (hres : env.res = GetStatus.SUCCESS)
    (hdata : env.data = some b) :
    (StartDataRequest loader s path r env).responses = s.responses ++ [⟨r, some b⟩] ∧
    emitted loader s (Call.start path r env) = [⟨r, some b⟩] ∧
    (StartDataRequest loader s path r env).loads = s.loads ∧
    (StartDataRequest loader s path r env).default_thumbnail_ = s.default_thumbnail_ := by
  simp [emitted, step, StartDataRequest, SendResponse, hswitch, hres, hdata]

/-- Witness for C2: a SUCCESS lookup delivering the empty buffer, while a
different default thumbnail is already memoized. -/
theorem hit_sends_backend_bytes_witness :
    (StartDataRequest (fun _ => [1, 2]) { init with default_thumbnail_ := some [1, 2] } "u" 7
        ⟨true, GetStatus.SUCCESS, some [], none, none, 0⟩).responses = [] ++ [⟨7, some []⟩] :=
  (hit_sends_backend_bytes (fun _ => [1, 2]) { init with default_thumbnail_ := some [1, 2] }
    "u" 7 ⟨true, GetStatus.SUCCESS, some [], none, none, 0⟩ [] rfl rfl rfl).1

/-- C3: with the thumbnail store selected, a FAIL lookup sends exactly one
response `(r, d)`, where `d` is the memoized default thumbnail if there is
one and otherwise the bytes the resource loader returns on this call. -/
theorem miss_sends_default (loader : Nat → Bytes) (s : Gateway) (path : String)
    (r : Int) (env : Env)
    (hswitch : env.HasSwitch = true) (hres : env.res = GetStatus.FAIL) :
    (StartDataRequest loader s path r env).responses =
      s.responses ++ [⟨r, some (defaultImage loader s)⟩] ∧
    emitted loader s (Call.start path r env) = [⟨r, some (defaultImage loader s)⟩] ∧
    (∀ d, s.default_thumbnail_ = some d → defaultImage loader s = d) ∧
    (s.default_thumbnail_ = none → defaultImage loader s = loader s.loads) := by
  cases hd : s.default_thumbnail_ <;>
    simp [emitted, step, StartDataRequest, SendResponse, defaultImage, hswitch, hres, hd]

/-- Witness for C3: a FAIL lookup on a fresh object. -/
theorem miss_sends_default_witness :
    (StartDataRequest (fun _ => [1, 2]) init "u" 7
        ⟨true, GetStatus.FAIL, none, none, none, 0⟩).responses =
      init.responses ++ [⟨7, some (defaultImage (fun _ => [1, 2]) init)⟩] :=
  (miss_sends_default (fun _ => [1, 2]) init "u" 7
    ⟨true, GetStatus.FAIL, none, none, none, 0⟩ rfl rfl).1

/-- C4 as stated fails when the resource loader writes no bytes: on an object
that has only issued a history lookup for request 7 (handle 5 of service 1),
`ReturnData` with a NULL payload and `OnThumbnailDataAvailable` with an empty
payload each send the response `(7, empty buffer)`, a present but empty
response. -/
theorem empty_default_sends_empty_response :
    GetClientData
        (StartDataRequest (fun _ => []) init "a" 7
          ⟨false, GetStatus.SUCCESS, none, none, some 1, 5⟩).cancelable_consumer_
        (some 1) 5 = 7 ∧
    emitted (fun _ => [])
        (StartDataRequest (fun _ => []) init "a" 7
          ⟨false, GetStatus.SUCCESS, none, none, some 1, 5⟩)
        (Call.returnData 7 none) = [⟨7, some []⟩] ∧
    emitted (fun _ => [])
        (StartDataRequest (fun _ => []) init "a" 7
          ⟨false, GetStatus.SUCCESS, none, none, some 1, 5⟩)
        (Call.thumbnailAvailable (some 1) 5 (some [])) = [⟨7, some []⟩] ∧
    ¬ (∀ x ∈ emitted (fun _ => [])
        (StartDataRequest (fun _ => []) init "a" 7
          ⟨false, GetStatus.SUCCESS, none, none, some 1, 5⟩)
        (Call.returnData 7 none), hasData x.data = true) := by
  decide

/-- C4, amended: a completion whose payload is NULL and one whose payload is
present but empty are treated identically, on `ReturnData` and on
`OnThumbnailDataAvailable` (whose handle `h` carries request id `r`): each
sends the single response `(r, d)` with `d` the default image bytes.  The
response is never NULL, and it is empty exactly when the default image bytes
themselves are empty. -/
theorem empty_payload_same_as_absent (loader : Nat → Bytes) (s : Gateway) (r : Int)
    (hs : Option Nat) (h : Int)
    (hmap : GetClientData s.cancelable_consumer_ hs h = r) :
    ReturnData loader s r (some []) = ReturnData loader s r none ∧
    OnThumbnailDataAvailable loader s hs h (some []) =
      OnThumbnailDataAvailable loader s hs h none ∧
    (∀ data, data = none ∨ data = some [] →
      emitted loader s (Call.returnData r data) = [⟨r, some (defaultImage loader s)⟩] ∧
      emitted loader s (Call.thumbnailAvailable hs h data) =
        [⟨r, some (defaultImage loader s)⟩]) ∧
    (∀ data, data = none ∨ data = some [] →
      ∀ x, x ∈ emitted loader s (Call.returnData r data) ∨
          x ∈ emitted loader s (Call.thumbnailAvailable hs h data) →
        x.data ≠ none ∧
        (x.data = some [] ↔ defaultImage loader s = []) ∧
        (hasData x.data = true ↔ defaultImage loader s ≠ [])) := by
  have key : ∀ data, data = none ∨ data = some [] →
      emitted loader s (Call.returnData r data) = [⟨r, some (defaultImage loader s)⟩] ∧
      emitted loader s (Call.thumbnailAvailable hs h data) =
        [⟨r, some (defaultImage loader s)⟩] := by
    intro data hdata
    rcases hdata with rfl | rfl <;> cases hd : s.default_thumbnail_ <;>
      simp [emitted, step, ReturnData, OnThumbnailDataAvailable, SendResponse, hasData,
        defaultImage, hd, hmap]
  refine ⟨?_, ?_, key, ?_⟩
  · simp [ReturnData, hasData]
  · simp [OnThumbnailDataAvailable, hasData]
  · intro data hdata x hx
    obtain ⟨h1, h2⟩ := key data hdata
    rw [h1, h2] at hx
    have hx2 : x = ⟨r, some (defaultImage loader s)⟩ := by simpa using hx
    subst hx2
    cases hdi : defaultImage loader s with
    | nil => simp [hasData]
    | cons a l => simp [hasData]

/-- Witness for the amended C4: handle 5 of service 1 carries request id 7 and
the default image, not loaded yet, has two bytes; the response to a NULL
payload is present and has data. -/
theorem empty_payload_same_as_absent_witness :
    (⟨7, some [1, 2]⟩ : Response) ∈ emitted (fun _ => [1, 2])
      { init with cancelable_consumer_ := [((some 1, 5), 7)] } (Call.returnData 7 none) ∧
    (⟨7, some [1, 2]⟩ : Response).data ≠ none ∧
    (hasData (⟨7, some [1, 2]⟩ : Response).data = true ↔
      defaultImage (fun _ => [1, 2])
        { init with cancelable_consumer_ := [((some 1, 5), 7)] } ≠ []) :=
  ⟨by decide,
    ((empty_payload_same_as_absent (fun _ => [1, 2])
      { init with cancelable_consumer_ := [((some 1, 5), 7)] } 7 (some 1) 5 (by decide)).2.2.2
      none (Or.inl rfl) ⟨7, some [1, 2]⟩ (Or.inl (by decide))).1,
    ((empty_payload_same_as_absent (fun _ => [1, 2])
      { init with cancelable_consumer_ := [((some 1, 5), 7)] } 7 (some 1) 5 (by decide)).2.2.2
      none (Or.inl rfl) ⟨7, some [1, 2]⟩ (Or.inl (by decide))).2.2⟩

/-- C5: a completion delivering a non-empty buffer `b` sends the single response
`(r, b)` with the bytes unchanged, on `ReturnData` and on
`OnThumbnailDataAvailable` (whose handle `h` carries request id `r`), and does
not call the default-image loader. -/
theorem nonempty_payload_forwarded (loader : Nat → Bytes) (s : Gateway) (r : Int)
    (hs : Option Nat) (h : Int) (b : Bytes)
    (hb : b ≠ [])
    (hmap : GetClientData s.cancelable_consumer_ hs h = r) :
    emitted loader s (Call.returnData r (some b)) = [⟨r, some b⟩] ∧
    emitted loader s (Call.thumbnailAvailable hs h (some b)) = [⟨r, some b⟩] ∧
    (ReturnData loader s r (some b)).responses = s.responses ++ [⟨r, some b⟩] ∧
    (OnThumbnailDataAvailable loader s hs h (some b)).responses =
      s.responses ++ [⟨r, some b⟩] ∧
    (ReturnData loader s r (some b)).loads = s.loads ∧
    (OnThumbnailDataAvailable loader s hs h (some b)).loads = s.loads ∧
    (ReturnData loader s r (some b)).default_thumbnail_ = s.default_thumbnail_ ∧
    (OnThumbnailDataAvailable loader s hs h (some b)).default_thumbnail_ =
      s.default_thumbnail_ := by
  cases b with
  | nil => exact absurd rfl hb
  | cons a l =>
    simp [emitted, step, ReturnData, OnThumbnailDataAvailable, SendResponse, hasData, hmap]

/-- Witness for C5: the JPEG header bytes delivered for request 7. -/
theorem nonempty_payload_forwarded_witness :
    emitted (fun _ => [1, 2]) { init with cancelable_consumer_ := [((some 1, 5), 7)] }
      (Call.returnData 7 (some [255, 216])) = [⟨7, some [255, 216]⟩] :=
  (nonempty_payload_forwarded (fun _ => [1, 2])
    { init with cancelable_consumer_ := [((some 1, 5), 7)] } 7 (some 1) 5 [255, 216]
    (by decide) (by decide)).1

/-- C6: with the history path selected and no history service, `StartDataRequest`
sends exactly the response `(r, NULL)`, issues no lookup to either backend and
attaches no client data.  Provided every SUCCESS lookup delivers a buffer, no
other branch of `StartDataRequest`, `ReturnData` or `OnThumbnailDataAvailable`
sends a NULL response. -/
theorem no_service_sends_absent (loader : Nat → Bytes) (s : Gateway) :
    (∀ path r env, env.HasSwitch = false → env.hs = none →
      StartDataRequest loader s path r env = SendResponse s r none ∧
      emitted loader s (Call.start path r env) = [⟨r, none⟩] ∧
      (StartDataRequest loader s path r env).storeLookups = s.storeLookups ∧
      (StartDataRequest loader s path r env).asyncLookups = s.asyncLookups ∧
      (StartDataRequest loader s path r env).historyLookups = s.historyLookups ∧
      (StartDataRequest loader s path r env).cancelable_consumer_ = s.cancelable_consumer_) ∧
    (∀ c x,
      (∀ path r env, c = Call.start path r env → env.HasSwitch = true →
        env.res = GetStatus.SUCCESS → env.data ≠ none) →
      x ∈ emitted loader s c → x.data = none →
      ∃ path r env, c = Call.start path r env ∧ env.HasSwitch = false ∧ env.hs = none) := by
  constructor
  · intro path r env hswitch hhs
    simp [emitted, step, StartDataRequest, SendResponse, hswitch, hhs]
  · intro c x hhit hx hnone
    cases c with
    | start path r env =>
      refine ⟨path, r, env, rfl, ?_⟩
      obtain ⟨sw, res, data, cb, hs, handle⟩ := env
      cases sw
      · cases hs with
        | none => simp
        | some p => simp [emitted, step, StartDataRequest] at hx
      · exfalso
        cases res with
        | SUCCESS =>
          have hd := hhit path r _ rfl rfl rfl
          simp [emitted, step, StartDataRequest, SendResponse] at hx
          subst hx
          exact hd hnone
        | FAIL =>
          cases hdt : s.default_thumbnail_ <;>
            simp [emitted, step, StartDataRequest, SendResponse, hdt] at hx <;>
            subst hx <;> simp at hnone
        | ASYNC =>
          cases cb with
          | none => simp [emitted, step, StartDataRequest] at hx
          | some payload =>
            cases hdt : s.default_thumbnail_ <;> cases hp : hasData payload <;>
              simp [emitted, step, StartDataRequest, ReturnData, SendResponse, hdt, hp] at hx <;>
              subst hx <;> simp at hnone <;>
              simp [hnone, hasData] at hp
    | returnData r data =>
      exfalso
      cases hdt : s.default_thumbnail_ <;> cases hp : hasData data <;>
        simp [emitted, step, ReturnData, SendResponse, hdt, hp] at hx <;>
        subst hx <;> simp at hnone <;>
        simp [hnone, hasData] at hp
    | thumbnailAvailable hs h data =>
      exfalso
      cases hdt : s.default_thumbnail_ <;> cases hp : hasData data <;>
        simp [emitted, step, OnThumbnailDataAvailable, SendResponse, hdt, hp] at hx <;>
        subst hx <;> simp at hnone <;>
        simp [hnone, hasData] at hp

/-- Witness for C6: request 42 on a fresh object with no history service. -/
theorem no_service_sends_absent_witness :
    emitted (fun _ => [1, 2]) init
      (Call.start "u" 42 ⟨false, GetStatus.SUCCESS, none, none, none, 0⟩) = [⟨42, none⟩] :=
  ((no_service_sends_absent (fun _ => [1, 2]) init).1 "u" 42
    ⟨false, GetStatus.SUCCESS, none, none, none, 0⟩ rfl rfl).2.1

/-! The pending-request set. -/

/-- C9: with the thumbnail store selected, an ASYNC lookup whose callback is not
run before `StartDataRequest` returns leaves `r` in the pending set, leaves
the membership of every other id as it was, has issued
`GetPageThumbnailAsync` with the same url and `r`, and has sent no response. -/
theorem pending_registers_request (loader : Nat → Bytes) (s : Gateway) (path : String)
    (r : Int) (env : Env)
    (hswitch : env.HasSwitch = true) (hres : env.res = GetStatus.ASYNC)
    (hlater : env.callback = none) :
    r ∈ (StartDataRequest loader s path r env).pending_requests_ ∧
    (∀ x, x ≠ r →
      (x ∈ (StartDataRequest loader s path r env).pending_requests_ ↔
        x ∈ s.pending_requests_)) ∧
    (StartDataRequest loader s path r env).pending_requests_ =
      insert r s.pending_requests_ ∧
    (StartDataRequest loader s path r env).asyncLookups = s.asyncLookups ++ [(path, r)] ∧
    (StartDataRequest loader s path r env).responses = s.responses ∧
    emitted loader s (Call.start path r env) = [] := by
  simp +contextual [emitted, step, StartDataRequest, hswitch, hres, hlater]

/-- Witness for C9: request 7 turns ASYNC while request 3 is already pending. -/
theorem pending_registers_request_witness :
    (7 : Int) ∈ (StartDataRequest (fun _ => [1, 2]) { init with pending_requests_ := {3} } "u" 7
        ⟨true, GetStatus.ASYNC, none, none, none, 0⟩).pending_requests_ :=
  (pending_registers_request (fun _ => [1, 2]) { init with pending_requests_ := {3} } "u" 7
    ⟨true, GetStatus.ASYNC, none, none, none, 0⟩ rfl rfl rfl).1

/-- C10 as stated fails on the history path: with request id 7 in the pending
set and handle 5 of service 1 carrying request id 7,
`OnThumbnailDataAvailable` for handle 5 leaves 7 in the pending set. -/
theorem history_completion_keeps_pending :
    GetClientData
        ({ init with pending_requests_ := {7},
                     cancelable_consumer_ := [((some 1, 5), 7)] } : Gateway).cancelable_consumer_
        (some 1) 5 = 7 ∧
    ¬ ((7 : Int) ∉ (OnThumbnailDataAvailable (fun _ => [1, 2])
        { init with pending_requests_ := {7}, cancelable_consumer_ := [((some 1, 5), 7)] }
        (some 1) 5 none).pending_requests_) := by
  decide

/-- C10, amended: `ReturnData(r, data)` removes `r` from the pending set, for
every payload and every prior content of the set, and leaves the membership
of every other id as it was.  `OnThumbnailDataAvailable(h, data)`, whatever
request id `h` carries, leaves the pending set exactly as it was, so `r` is
not a member afterwards whenever it was not a member before. -/
theorem completion_pending_effect (loader : Nat → Bytes) (s : Gateway) (r : Int)
    (hs : Option Nat) (h : Int) (data : Option Bytes) :
    r ∉ (ReturnData loader s r data).pending_requests_ ∧
    (ReturnData loader s r data).pending_requests_ = s.pending_requests_.erase r ∧
    (OnThumbnailDataAvailable loader s hs h data).pending_requests_ = s.pending_requests_ ∧
    (r ∉ s.pending_requests_ →
      r ∉ (OnThumbnailDataAvailable loader s hs h data).pending_requests_) := by
  have h1 : (ReturnData loader s r data).pending_requests_ = s.pending_requests_.erase r := by
    cases hd : s.default_thumbnail_ <;> cases hp : hasData data <;>
      simp [ReturnData, SendResponse, hd, hp]
  have h2 : (OnThumbnailDataAvailable loader s hs h data).pending_requests_ =
      s.pending_requests_ := by
    cases hd : s.default_thumbnail_ <;> cases hp : hasData data <;>
      simp [OnThumbnailDataAvailable, SendResponse, hd, hp]
  refine ⟨?_, h1, h2, ?_⟩
  · rw [h1]; simp
  · intro hnot; rw [h2]; exact hnot

/-- Witness for the amended C10: request 7 is pending when `ReturnData` runs. -/
theorem completion_pending_effect_witness :
    (7 : Int) ∉ (ReturnData (fun _ => [1, 2])
        { init with pending_requests_ := {7}, cancelable_consumer_ := [((some 1, 5), 7)] }
        7 none).pending_requests_ :=
  (completion_pending_effect (fun _ => [1, 2])
    { init with pending_requests_ := {7}, cancelable_consumer_ := [((some 1, 5), 7)] }
    7 (some 1) 5 none).1

/-! The default thumbnail. -/

/-- Effect of one call on the memoized default thumbnail and on the number of
loader calls, in any state. -/
theorem step_cache (loader : Nat → Bytes) (s : Gateway) (c : Call) :
    (step loader s c).default_thumbnail_ =
      (if needsFallback c then some (defaultImage loader s) else s.default_thumbnail_) ∧
    (step loader s c).loads =
      (if needsFallback c && s.default_thumbnail_.isNone then s.loads + 1 else s.loads) := by
  cases c with
  | start path r env =>
    obtain ⟨sw, res, data, cb, hs, handle⟩ := env
    cases sw
    · cases hs <;> simp [step, StartDataRequest, SendResponse, needsFallback]
    · cases res with
      | SUCCESS => simp [step, StartDataRequest, SendResponse, needsFallback]
      | FAIL =>
        cases hd : s.default_thumbnail_ <;>
          simp [step, StartDataRequest, SendResponse, needsFallback, defaultImage, hd]
      | ASYNC =>
        cases cb with
        | none => simp [step, StartDataRequest, needsFallback]
        | some payload =>
          cases hd : s.default_thumbnail_ <;> cases hp : hasData payload <;>
            simp [step, StartDataRequest, ReturnData, SendResponse, needsFallback,
              defaultImage, hd, hp]
  | returnData r data =>
    cases hd : s.default_thumbnail_ <;> cases hp : hasData data <;>
      simp [step, ReturnData, SendResponse, needsFallback, defaultImage, hd, hp]
  | thumbnailAvailable hs h data =>
    cases hd : s.default_thumbnail_ <;> cases hp : hasData data <;>
      simp [step, OnThumbnailDataAvailable, SendResponse, needsFallback, defaultImage, hd, hp]

/-- What a call that takes a fallback branch sends, in any state. -/
theorem fallback_emitted (loader : Nat → Bytes) (s : Gateway) (c : Call)
    (hc : needsFallback c = true) :
    emitted loader s c = [⟨answersFor s c, some (defaultImage loader s)⟩] := by
  cases c with
  | start path r env =>
    obtain ⟨sw, res, data, cb, hs, handle⟩ := env
    cases sw
    · simp [needsFallback] at hc
    · cases res with
      | SUCCESS => simp [needsFallback] at hc
      | FAIL =>
        cases hd : s.default_thumbnail_ <;>
          simp [emitted, step, StartDataRequest, SendResponse, answersFor, defaultImage, hd]
      | ASYNC =>
        cases cb with
        | none => simp [needsFallback] at hc
        | some payload =>
          have hp : hasData payload = false := by simpa [needsFallback] using hc
          cases hd : s.default_thumbnail_ <;>
            simp [emitted, step, StartDataRequest, ReturnData, SendResponse, answersFor,
              defaultImage, hd, hp]
  | returnData r data =>
    have hp : hasData data = false := by simpa [needsFallback] using hc
    cases hd : s.default_thumbnail_ <;>
      simp [emitted, step, ReturnData, SendResponse, answersFor, defaultImage, hd, hp]
  | thumbnailAvailable hs h data =>
    have hp : hasData data = false := by simpa [needsFallback] using hc
    cases hd : s.default_thumbnail_ <;>
      simp [emitted, step, OnThumbnailDataAvailable, SendResponse, answersFor,
        defaultImage, hd, hp]

/-- Running a sequence and then one more call. -/
theorem run_snoc (loader : Nat → Bytes) (s : Gateway) (calls : List Call) (c : Call) :
    run loader s (calls ++ [c]) = step loader (run loader s calls) c := by
  simp [run, List.foldl_append]

/-- Running two sequences one after the other. -/
theorem run_append (loader : Nat → Bytes) (s : Gateway) (calls more : List Call) :
    run loader s (calls ++ more) = run loader (run loader s calls) more := by
  simp [run, List.foldl_append]

/-- The memoized thumbnail and the number of loader calls after any sequence of
calls on a fresh object. -/
theorem run_cache (loader : Nat → Bytes) (calls : List Call) :
    (run loader init calls).default_thumbnail_ =
      (if calls.any needsFallback then some (loader 0) else none) ∧
    (run loader init calls).loads = (if calls.any needsFallback then 1 else 0) := by
  induction calls using List.reverseRecOn with
  | nil => simp [run, init]
  | append_singleton l c ih =>
    obtain ⟨ih1, ih2⟩ := ih
    rw [run_snoc]
    obtain ⟨h1, h2⟩ := step_cache loader (run loader init l) c
    rw [h1, h2]
    cases hl : l.any needsFallback <;> cases hc : needsFallback c <;>
      simp [hl, hc, ih1, ih2, defaultImage] at *

/-- C7: over every finite sequence of calls on one object the default-image
loader is called at most once.  It has not been called while no call needed
the fallback, it is called on the first call that needs the fallback, and
once it has been called no later call calls it again. -/
theorem loader_invoked_at_most_once (loader : Nat → Bytes) (calls : List Call) :
    (run loader init calls).loads ≤ 1 ∧
    ((∀ c ∈ calls, needsFallback c = false) → (run loader init calls).loads = 0) ∧
    (∀ c, (∀ x ∈ calls, needsFallback x = false) → needsFallback c = true →
      (run loader init (calls ++ [c])).loads = 1) ∧
    (∀ more, (run loader init calls).loads = 1 →
      (run loader init (calls ++ more)).loads = 1) := by
  refine ⟨?_, ?_, ?_, ?_⟩
  · rw [(run_cache loader calls).2]
    split <;> simp
  · intro hnone
    rw [(run_cache loader calls).2]
    have : calls.any needsFallback = false := by
      simpa [List.any_eq_false] using hnone
    simp [this]
  · intro c _ hc
    rw [(run_cache loader (calls ++ [c])).2]
    simp [hc]
  · intro more hone
    rw [(run_cache loader calls).2] at hone
    rw [(run_cache loader (calls ++ more)).2]
    cases hany : calls.any needsFallback
    · simp [hany] at hone
    · have : (calls ++ more).any needsFallback = true := by
        simp only [List.any_append, hany, Bool.true_or]
      simp [this]

/-- Witness for C7: a hit, then a miss (the first call needing the fallback),
then an empty completion. -/
theorem loader_invoked_at_most_once_witness :
    (run (fun k => [k]) init
      ([Call.start "a" 1 ⟨true, GetStatus.SUCCESS, some [5], none, none, 0⟩] ++
        [Call.start "b" 2 ⟨true, GetStatus.FAIL, none, none, none, 0⟩])).loads = 1 :=
  (loader_invoked_at_most_once (fun k => [k])
    [Call.start "a" 1 ⟨true, GetStatus.SUCCESS, some [5], none, none, 0⟩]).2.2.1
    (Call.start "b" 2 ⟨true, GetStatus.FAIL, none, none, none, 0⟩) (by decide) (by decide)

/-- C8: once the default thumbnail is populated every call leaves it unchanged,
and every fallback response sent in the life of the object (store FAIL,
`ReturnData` or `OnThumbnailDataAvailable` with a NULL or empty payload)
carries the bytes of the first load, `loader 0`, whatever the loader would
return on later calls. -/
theorem default_thumbnail_stable (loader : Nat → Bytes) :
    (∀ s c d, s.default_thumbnail_ = some d →
      (step loader s c).default_thumbnail_ = some d) ∧
    (∀ calls s d, s.default_thumbnail_ = some d →
      (run loader s calls).default_thumbnail_ = some d) ∧
    (∀ calls c, needsFallback c = true →
      emitted loader (run loader init calls) c =
        [⟨answersFor (run loader init calls) c, some (loader 0)⟩]) := by
  have hstep : ∀ s c d, s.default_thumbnail_ = some d →
      (step loader s c).default_thumbnail_ = some d := by
    intro s c d hd
    rw [(step_cache loader s c).1]
    split <;> simp [defaultImage, hd]
  refine ⟨hstep, ?_, ?_⟩
  · intro calls
    induction calls with
    | nil => intro s d hd; simpa [run] using hd
    | cons c rest ih =>
      intro s d hd
      exact ih (step loader s c) d (hstep s c d hd)
  · intro calls c hc
    rw [fallback_emitted loader _ c hc]
    obtain ⟨h1, h2⟩ := run_cache loader calls
    cases hany : calls.any needsFallback <;> simp [defaultImage, h1, h2, hany]

/-- Witness for C8: a loader that returns different bytes on every call; the
second fallback response still carries the bytes of the first load. -/
theorem default_thumbnail_stable_witness :
    emitted (fun k => [k]) (run (fun k => [k]) init
        [Call.start "b" 2 ⟨true, GetStatus.FAIL, none, none, none, 0⟩])
      (Call.returnData 9 (some [])) =
      [⟨answersFor (run (fun k => [k]) init
          [Call.start "b" 2 ⟨true, GetStatus.FAIL, none, none, none, 0⟩])
          (Call.returnData 9 (some [])), some [0]⟩] :=
  (default_thumbnail_stable (fun k => [k])).2.2
    [Call.start "b" 2 ⟨true, GetStatus.FAIL, none, none, none, 0⟩]
    (Call.returnData 9 (some [])) (by decide)

/-! One response per request. -/

/-- Retrieving under the key just attached yields the attached request id. -/
theorem getClientData_set_same (m : List (ConsumerKey × Int)) (hs : Option Nat) (h : Int)
    (r : Int) : GetClientData (SetClientData m hs h r) hs h = r := by
  simp [GetClientData, SetClientData]

/-- Attaching under one key leaves what is retrieved under another key as it was. -/
theorem getClientData_set_other (m : List (ConsumerKey × Int)) (hs : Option Nat) (h : Int)
    (r : Int) (k : ConsumerKey) (hk : k ≠ (hs, h)) :
    GetClientData (SetClientData m hs h r) k.1 k.2 = GetClientData m k.1 k.2 := by
  have hk2 : ¬ ((hs, h) = (k.1, k.2)) := fun e => hk (by rw [e])
  have hfun : (fun e : ConsumerKey × Int =>
      decide (decide (e.1 ≠ (hs, h)) = true ∧ decide (e.1 = (k.1, k.2)) = true)) =
      fun e => decide (e.1 = (k.1, k.2)) := by
    funext e
    by_cases he2 : e.1 = (k.1, k.2)
    · have he : e.1 ≠ (hs, h) := fun e3 => hk2 (e3.symm.trans he2)
      rw [decide_eq_true he, decide_eq_true he2]
      rfl
    · rw [decide_eq_false he2]
      simp
  have hfind : ∀ l : List (ConsumerKey × Int),
      (l.filter (fun e => decide (e.1 ≠ (hs, h)))).find? (fun e => decide (e.1 = (k.1, k.2))) =
        l.find? (fun e => decide (e.1 = (k.1, k.2))) := by
    intro l
    rw [List.find?_filter, hfun]
  unfold GetClientData SetClientData
  rw [List.find?_cons]
  simp only [hk2, decide_False]
  rw [hfind]

/-- The client data attached to history requests after one call. -/
theorem step_consumer (loader : Nat → Bytes) (s : Gateway) (c : Call) :
    (step loader s c).cancelable_consumer_ =
      (match c with
       | Call.start _ r env =>
         if env.HasSwitch then s.cancelable_consumer_
         else
           match env.hs with
           | some p => SetClientData s.cancelable_consumer_ (some p) env.handle r
           | none => s.cancelable_consumer_
       | _ => s.cancelable_consumer_) := by
  cases c with
  | start path r env =>
    obtain ⟨sw, res, data, cb, hs, handle⟩ := env
    cases sw
    · cases hs <;> simp [step, StartDataRequest, SendResponse]
    · cases res with
      | SUCCESS => simp [step, StartDataRequest, SendResponse]
      | FAIL =>
        cases hd : s.default_thumbnail_ <;> simp [step, StartDataRequest, SendResponse, hd]
      | ASYNC =>
        cases cb with
        | none => simp [step, StartDataRequest]
        | some payload =>
          cases hd : s.default_thumbnail_ <;> cases hp : hasData payload <;>
            simp [step, StartDataRequest, ReturnData, SendResponse, hd, hp]
  | returnData r data =>
    cases hd : s.default_thumbnail_ <;> cases hp : hasData data <;>
      simp [step, ReturnData, SendResponse, hd, hp]
  | thumbnailAvailable hs h data =>
    cases hd : s.default_thumbnail_ <;> cases hp : hasData data <;>
      simp [step, OnThumbnailDataAvailable, SendResponse, hd, hp]

/-- Whether a call sends a response before it returns. -/
theorem step_responses (loader : Nat → Bytes) (s : Gateway) (c : Call) :
    ∃ d, (step loader s c).responses =
      s.responses ++
        (match c with
         | Call.start _ r env =>
           if env.HasSwitch then
             match env.res, env.callback with
             | GetStatus.ASYNC, none => []
             | _, _ => [⟨r, d⟩]
           else
             match env.hs with
             | some _ => []
             | none => [⟨r, none⟩]
         | Call.returnData r _ => [⟨r, d⟩]
         | Call.thumbnailAvailable hs h _ =>
           [⟨GetClientData s.cancelable_consumer_ hs h, d⟩]) := by
  cases c with
  | start path r env =>
    obtain ⟨sw, res, data, cb, hs, handle⟩ := env
    cases sw
    · cases hs <;> simp [step, StartDataRequest, SendResponse]
    · cases res with
      | SUCCESS => exact ⟨data, by simp [step, StartDataRequest, SendResponse]⟩
      | FAIL =>
        cases hd : s.default_thumbnail_ <;> simp [step, StartDataRequest, SendResponse, hd]
      | ASYNC =>
        cases cb with
        | none => simp [step, StartDataRequest]
        | some payload =>
          cases hd : s.default_thumbnail_ <;> cases hp : hasData payload <;>
            simp [step, StartDataRequest, ReturnData, SendResponse, hd, hp]
  | returnData r data =>
    cases hd : s.default_thumbnail_ <;> cases hp : hasData data <;>
      simp [step, ReturnData, SendResponse, hd, hp]
  | thumbnailAvailable hs h data =>
    cases hd : s.default_thumbnail_ <;> cases hp : hasData data <;>
      simp [step, OnThumbnailDataAvailable, SendResponse, hd, hp]

/-- Counting responses after one call. -/
theorem countResponses_step (r : Int) (s s2 : Gateway) (l : List Response)
    (h : s2.responses = s.responses ++ l) :
    countResponses r s2 =
      countResponses r s + l.countP (fun x => decide (x.request_id = r)) := by
  simp [countResponses, h]

/-- Removing the first element that satisfies `p` lowers a count by that
element's contribution. -/
theorem countP_eraseP_of_find {α : Type} (p q : α → Bool) :
    ∀ (l : List α) (e : α), l.find? p = some e →
      l.countP q = (l.eraseP p).countP q + (if q e then 1 else 0) := by
  intro l
  induction l with
  | nil => intro e he; simp at he
  | cons a l ih =>
    intro e he
    by_cases hp : p a = true
    · have hea : a = e := by simpa [List.find?_cons, hp] using he
      subst hea
      rw [List.eraseP_cons_of_pos hp, List.countP_cons]
    · have he2 : l.find? p = some e := by simpa [List.find?_cons, hp] using he
      rw [List.eraseP_cons_of_neg hp, List.countP_cons, List.countP_cons, ih e he2]
      omega

/-- In an execution where every accepted asynchronous lookup is completed
exactly once, the responses for `r` at the end are those already sent, one
per `StartDataRequest` with `r`, and one per completion still owed for `r`. -/
theorem responses_settle (loader : Nat → Bytes) (r : Int) :
    ∀ (calls : List Call) (s : Gateway) (owedStore : List Int)
      (owedHistory : List (ConsumerKey × Int)),
      (∀ e ∈ owedHistory, GetClientData s.cancelable_consumer_ e.1.1 e.1.2 = e.2) →
      exactlyOnce owedStore owedHistory calls = true →
      countResponses r (run loader s calls) =
        countResponses r s + countStarts r calls + owedStore.count r +
          owedHistory.countP (fun e => decide (e.2 = r)) := by
  intro calls
  induction calls with
  | nil =>
    intro s oS oH _ hex
    simp [exactlyOnce] at hex
    obtain ⟨h1, h2⟩ := hex
    subst h1; subst h2
    simp [run, countStarts]
  | cons c rest ih =>
    intro s oS oH hinv hex
    have hrun : run loader s (c :: rest) = run loader (step loader s c) rest := rfl
    obtain ⟨d, hresp⟩ := step_responses loader s c
    have hcount := countResponses_step r s _ _ hresp
    have hcons := step_consumer loader s c
    rw [hrun]
    cases c with
    | start path r0 env =>
      obtain ⟨sw, res, data, cb, hs, handle⟩ := env
      cases sw
      · cases hs with
        | none =>
          simp [exactlyOnce] at hex
          simp at hcount hcons
          have hinv2 : ∀ e ∈ oH, GetClientData
              (step loader s (Call.start path r0
                ⟨false, res, data, cb, none, handle⟩)).cancelable_consumer_
              e.1.1 e.1.2 = e.2 := by
            rw [hcons]; exact hinv
          rw [ih _ oS oH hinv2 hex, hcount]
          by_cases hr : r0 = r <;> simp [countStarts, isStartFor, List.countP_cons, hr]
          omega
        | some p =>
          simp [exactlyOnce] at hex
          simp at hcount hcons
          obtain ⟨hfresh, hex2⟩ := hex
          have hinv2 : ∀ e ∈ ((some p, handle), r0) :: oH, GetClientData
              (step loader s (Call.start path r0
                ⟨false, res, data, cb, some p, handle⟩)).cancelable_consumer_
              e.1.1 e.1.2 = e.2 := by
            rw [hcons]
            intro e he
            rcases List.mem_cons.mp he with rfl | he
            · exact getClientData_set_same _ _ _ _
            · have hne : e.1 ≠ (some p, handle) := fun heq =>
                hfresh e.1.1 e.1.2 e.2 he (congrArg Prod.fst heq) (congrArg Prod.snd heq)
              rw [getClientData_set_other _ _ _ _ e.1 hne]
              exact hinv e he
          rw [ih _ oS _ hinv2 hex2, hcount]
          by_cases hr : r0 = r <;> simp [countStarts, isStartFor, List.countP_cons, hr]
          omega
      · simp at hcons
        have hinv2 : ∀ e ∈ oH, GetClientData
            (step loader s (Call.start path r0
              ⟨true, res, data, cb, hs, handle⟩)).cancelable_consumer_
            e.1.1 e.1.2 = e.2 := by
          rw [hcons]; exact hinv
        cases res <;> cases cb <;> simp [exactlyOnce] at hex <;> simp at hcount <;>
          rw [ih _ _ oH hinv2 hex, hcount] <;>
          by_cases hr : r0 = r <;>
          simp [countStarts, isStartFor, List.countP_cons, List.count_cons, hr] <;> omega
    | returnData r0 data =>
      simp [exactlyOnce] at hex
      simp at hcount hcons
      obtain ⟨hmem, hex2⟩ := hex
      have hinv2 : ∀ e ∈ oH, GetClientData
          (step loader s (Call.returnData r0 data)).cancelable_consumer_
          e.1.1 e.1.2 = e.2 := by
        rw [hcons]; exact hinv
      rw [ih _ _ oH hinv2 hex2, hcount]
      by_cases hr : r0 = r
      · subst hr
        have hpos : 0 < oS.count r0 := List.count_pos_iff.mpr hmem
        simp [countStarts, isStartFor, List.countP_cons, List.count_erase_self]
        omega
      · have hne : r ≠ r0 := fun e => hr e.symm
        simp [countStarts, isStartFor, List.countP_cons, List.count_erase_of_ne hne, hr]
    | thumbnailAvailable hs h data =>
      simp only [exactlyOnce] at hex
      simp at hcount hcons
      cases hfind : oH.find? (fun e => decide (e.1 = (hs, h))) with
      | none => simp [hfind] at hex
      | some e =>
        simp only [hfind] at hex
        have hmem : e ∈ oH := List.mem_of_find?_eq_some hfind
        have hkey : e.1 = (hs, h) := by simpa using List.find?_some hfind
        have hid : GetClientData s.cancelable_consumer_ hs h = e.2 := by
          have := hinv e hmem
          rw [hkey] at this
          exact this
        have hinv2 : ∀ x ∈ oH.eraseP (fun e => decide (e.1 = (hs, h))), GetClientData
            (step loader s (Call.thumbnailAvailable hs h data)).cancelable_consumer_
            x.1.1 x.1.2 = x.2 := by
          rw [hcons]
          intro x hx
          exact hinv x (List.mem_of_mem_eraseP hx)
        have hsplit := countP_eraseP_of_find (fun e => decide (e.1 = (hs, h)))
          (fun e => decide (e.2 = r)) oH e hfind
        rw [ih _ oS _ hinv2 hex, hcount, hsplit, hid]
        by_cases hr : e.2 = r <;> simp [countStarts, isStartFor, List.countP_cons, hr]
        omega

/-- C1: in every execution in which each backend runs its completion callback
exactly once for each asynchronous lookup it accepted, the number of
`SendResponse` calls carrying request id `r` equals the number of
`StartDataRequest` invocations made with `r`.  Branch by branch: SUCCESS, FAIL
and the missing history service send exactly one response inside
`StartDataRequest`; the ASYNC branch and the history lookup send nothing of
their own (when the store runs the callback inside `GetPageThumbnailAsync`,
what the call does is what `ReturnData` does after the lookup was issued);
`ReturnData` and `OnThumbnailDataAvailable` each send exactly one. -/
theorem one_response_per_request (loader : Nat → Bytes) :
    (∀ calls r, exactlyOnce [] [] calls = true →
      countResponses r (run loader init calls) = countStarts r calls) ∧
    (∀ s path r env,
      (env.HasSwitch = true → env.res = GetStatus.SUCCESS →
        ∃ d, emitted loader s (Call.start path r env) = [⟨r, d⟩]) ∧
      (env.HasSwitch = true → env.res = GetStatus.FAIL →
        ∃ d, emitted loader s (Call.start path r env) = [⟨r, d⟩]) ∧
      (env.HasSwitch = false → env.hs = none →
        emitted loader s (Call.start path r env) = [⟨r, none⟩]) ∧
      (env.HasSwitch = true → env.res = GetStatus.ASYNC → env.callback = none →
        emitted loader s (Call.start path r env) = []) ∧
      (env.HasSwitch = true → env.res = GetStatus.ASYNC →
        ∀ payload, env.callback = some payload →
          StartDataRequest loader s path r env =
            ReturnData loader
              { s with storeLookups := s.storeLookups ++ [path],
                       pending_requests_ := insert r s.pending_requests_,
                       asyncLookups := s.asyncLookups ++ [(path, r)] } r payload) ∧
      (env.HasSwitch = false → ∀ p, env.hs = some p →
        emitted loader s (Call.start path r env) = [])) ∧
    (∀ s r data, ∃ d, emitted loader s (Call.returnData r data) = [⟨r, d⟩]) ∧
    (∀ s hs h data, ∃ d, emitted loader s (Call.thumbnailAvailable hs h data) =
      [⟨GetClientData s.cancelable_consumer_ hs h, d⟩]) := by
  refine ⟨?_, ?_, ?_, ?_⟩
  · intro calls r hex
    have h := responses_settle loader r calls init [] [] (by simp) hex
    simpa [countResponses, init] using h
  · intro s path r env
    refine ⟨?_, ?_, ?_, ?_, ?_, ?_⟩
    · intro hsw hres
      exact ⟨env.data, by simp [emitted, step, StartDataRequest, SendResponse, hsw, hres]⟩
    · intro hsw hres
      cases hd : s.default_thumbnail_ <;>
        simp [emitted, step, StartDataRequest, SendResponse, hsw, hres, hd]
    · intro hsw hhs
      simp [emitted, step, StartDataRequest, SendResponse, hsw, hhs]
    · intro hsw hres hcb
      simp [emitted, step, StartDataRequest, hsw, hres, hcb]
    · intro hsw hres payload hcb
      simp [StartDataRequest, hsw, hres, hcb]
    · intro hsw p hhs
      simp [emitted, step, StartDataRequest, hsw, hhs]
  · intro s r data
    cases hd : s.default_thumbnail_ <;> cases hp : hasData data <;>
      simp [emitted, step, ReturnData, SendResponse, hd, hp]
  · intro s hs h data
    cases hd : s.default_thumbnail_ <;> cases hp : hasData data <;>
      simp [emitted, step, OnThumbnailDataAvailable, SendResponse, hd, hp]

/-- Witness for C1: request 1 goes to the store and is completed later, request
2 goes to the history service under handle 5 and is completed first. -/
theorem one_response_per_request_witness :
    exactlyOnce [] []
      [Call.start "a" 1 ⟨true, GetStatus.ASYNC, none, none, none, 0⟩,
       Call.start "b" 2 ⟨false, GetStatus.SUCCESS, none, none, some 1, 5⟩,
       Call.thumbnailAvailable (some 1) 5 none,
       Call.returnData 1 (some [3])] = true ∧
    countResponses 2 (run (fun k => [k]) init
      [Call.start "a" 1 ⟨true, GetStatus.ASYNC, none, none, none, 0⟩,
       Call.start "b" 2 ⟨false, GetStatus.SUCCESS, none, none, some 1, 5⟩,
       Call.thumbnailAvailable (some 1) 5 none,
       Call.returnData 1 (some [3])]) =
    countStarts 2
      [Call.start "a" 1 ⟨true, GetStatus.ASYNC, none, none, none, 0⟩,
       Call.start "b" 2 ⟨false, GetStatus.SUCCESS, none, none, some 1, 5⟩,
       Call.thumbnailAvailable (some 1) 5 none,
       Call.returnData 1 (some [3])] :=
  ⟨by decide, (one_response_per_request (fun k => [k])).1 _ 2 (by decide)⟩

/-! Frame conditions and routing. -/

/-- C15: a request resolved synchronously leaves the pending set as it was: on
SUCCESS, on FAIL and on the missing history service `StartDataRequest`
returns with `pending_requests_` unchanged, and on SUCCESS and on the missing
history service the default thumbnail is unchanged and no load happens. -/
theorem sync_resolution_frame (loader : Nat → Bytes) (s : Gateway) (path : String)
    (r : Int) (env : Env) :
    (env.HasSwitch = true → env.res = GetStatus.SUCCESS →
      (StartDataRequest loader s path r env).pending_requests_ = s.pending_requests_ ∧
      (StartDataRequest loader s path r env).default_thumbnail_ = s.default_thumbnail_ ∧
      (StartDataRequest loader s path r env).loads = s.loads) ∧
    (env.HasSwitch = true → env.res = GetStatus.FAIL →
      (StartDataRequest loader s path r env).pending_requests_ = s.pending_requests_) ∧
    (env.HasSwitch = false → env.hs = none →
      (StartDataRequest loader s path r env).pending_requests_ = s.pending_requests_ ∧
      (StartDataRequest loader s path r env).default_thumbnail_ = s.default_thumbnail_ ∧
      (StartDataRequest loader s path r env).loads = s.loads) := by
  refine ⟨?_, ?_, ?_⟩
  · intro hsw hres
    simp [StartDataRequest, SendResponse, hsw, hres]
  · intro hsw hres
    cases hd : s.default_thumbnail_ <;> simp [StartDataRequest, SendResponse, hsw, hres, hd]
  · intro hsw hhs
    simp [StartDataRequest, SendResponse, hsw, hhs]

/-- Witness for C15: a FAIL lookup for request 7 while requests 3 and 7 are
pending; the set still holds both afterwards. -/
theorem sync_resolution_frame_witness :
    (StartDataRequest (fun _ => [1, 2]) { init with pending_requests_ := {3, 7} } "u" 7
        ⟨true, GetStatus.FAIL, none, none, none, 0⟩).pending_requests_ = {3, 7} :=
  (sync_resolution_frame (fun _ => [1, 2]) { init with pending_requests_ := {3, 7} } "u" 7
    ⟨true, GetStatus.FAIL, none, none, none, 0⟩).2.1 rfl rfl

/-- C17: on the ASYNC branch the request id is inserted before
`GetPageThumbnailAsync` is called, so when the store runs the callback inside
that call the whole `StartDataRequest` is `ReturnData` run on the state that
already holds the id: on return the id is not in the pending set, an id that
was not a member beforehand leaves the set as it was, and exactly one
response has been sent, for this id. -/
theorem reentrant_callback_settles (loader : Nat → Bytes) (s : Gateway) (path : String)
    (r : Int) (env : Env) (payload : Option Bytes)
    (hswitch : env.HasSwitch = true) (hres : env.res = GetStatus.ASYNC)
    (hinside : env.callback = some payload) :
    StartDataRequest loader s path r env =
      ReturnData loader
        { s with storeLookups := s.storeLookups ++ [path],
                 pending_requests_ := insert r s.pending_requests_,
                 asyncLookups := s.asyncLookups ++ [(path, r)] } r payload ∧
    r ∉ (StartDataRequest loader s path r env).pending_requests_ ∧
    (r ∉ s.pending_requests_ →
      (StartDataRequest loader s path r env).pending_requests_ = s.pending_requests_) ∧
    (∃ d, emitted loader s (Call.start path r env) = [⟨r, d⟩]) ∧
    countResponses r (StartDataRequest loader s path r env) = countResponses r s + 1 ∧
    (StartDataRequest loader s path r env).asyncLookups = s.asyncLookups ++ [(path, r)] := by
  cases hd : s.default_thumbnail_ <;> cases hp : hasData payload <;>
    simp +contextual [emitted, step, StartDataRequest, ReturnData, SendResponse, countResponses,
      hswitch, hres, hinside, hd, hp]

/-- Witness for C17: the store answers request 7 with an empty payload from
inside `GetPageThumbnailAsync` while request 3 is pending. -/
theorem reentrant_callback_settles_witness :
    (7 : Int) ∉ (StartDataRequest (fun _ => [1, 2]) { init with pending_requests_ := {3} } "u" 7
        ⟨true, GetStatus.ASYNC, none, some (some []), none, 0⟩).pending_requests_ :=
  (reentrant_callback_settles (fun _ => [1, 2]) { init with pending_requests_ := {3} } "u" 7
    ⟨true, GetStatus.ASYNC, none, some (some []), none, 0⟩ (some []) rfl rfl rfl).2.1

/-- C13 as stated fails: two `StartDataRequest` calls on the same object, made
with answers that differ only in the value of the switch at the time of the
call, go to different backends. -/
theorem routing_differs_with_flag :
    routedTo (fun _ => [1, 2]) init "a" 1 ⟨true, GetStatus.FAIL, none, none, some 1, 5⟩ =
      Backend.PRIMARY ∧
    routedTo (fun _ => [1, 2])
      (StartDataRequest (fun _ => [1, 2]) init "a" 1
        ⟨true, GetStatus.FAIL, none, none, some 1, 5⟩)
      "b" 2 ⟨false, GetStatus.FAIL, none, none, some 1, 5⟩ = Backend.LEGACY ∧
    ¬ (routedTo (fun _ => [1, 2]) init "a" 1 ⟨true, GetStatus.FAIL, none, none, some 1, 5⟩ =
      routedTo (fun _ => [1, 2])
        (StartDataRequest (fun _ => [1, 2]) init "a" 1
          ⟨true, GetStatus.FAIL, none, none, some 1, 5⟩)
        "b" 2 ⟨false, GetStatus.FAIL, none, none, some 1, 5⟩) := by
  decide

/-- C13, amended: the backend that handles a request is a function only of the
value the switch has when that `StartDataRequest` call reads it.  It does not
depend on the state of the object, which holds no captured flag, and two
calls go to the same backend exactly when the switch has the same value at
both. -/
theorem routing_follows_flag (loader : Nat → Bytes) (s : Gateway) (path : String)
    (r : Int) (env : Env) :
    routedTo loader s path r env =
      (if env.HasSwitch then Backend.PRIMARY else Backend.LEGACY) ∧
    (∀ s2 path2 r2 env2,
      (routedTo loader s path r env = routedTo loader s2 path2 r2 env2 ↔
        env.HasSwitch = env2.HasSwitch)) ∧
    (env.HasSwitch = true →
      (StartDataRequest loader s path r env).storeLookups = s.storeLookups ++ [path] ∧
      (StartDataRequest loader s path r env).historyLookups = s.historyLookups) ∧
    (env.HasSwitch = false →
      (StartDataRequest loader s path r env).storeLookups = s.storeLookups ∧
      (StartDataRequest loader s path r env).asyncLookups = s.asyncLookups) := by
  have hstore : ∀ (s : Gateway) (path : String) (r : Int) (env : Env),
      (StartDataRequest loader s path r env).storeLookups =
        (if env.HasSwitch then s.storeLookups ++ [path] else s.storeLookups) := by
    intro s path r env
    obtain ⟨sw, res, data, cb, hs, handle⟩ := env
    cases sw
    · cases hs <;> simp [StartDataRequest, SendResponse]
    · cases res with
      | SUCCESS => simp [StartDataRequest, SendResponse]
      | FAIL =>
        cases hd : s.default_thumbnail_ <;> simp [StartDataRequest, SendResponse, hd]
      | ASYNC =>
        cases cb with
        | none => simp [StartDataRequest]
        | some payload =>
          cases hd : s.default_thumbnail_ <;> cases hp : hasData payload <;>
            simp [StartDataRequest, ReturnData, SendResponse, hd, hp]
  have hroute : ∀ (s : Gateway) (path : String) (r : Int) (env : Env),
      routedTo loader s path r env =
        (if env.HasSwitch then Backend.PRIMARY else Backend.LEGACY) := by
    intro s path r env
    unfold routedTo
    rw [hstore]
    cases env.HasSwitch <;> simp
  refine ⟨hroute s path r env, ?_, ?_, ?_⟩
  · intro s2 path2 r2 env2
    rw [hroute, hroute]
    cases env.HasSwitch <;> cases env2.HasSwitch <;> simp
  · intro hsw
    refine ⟨by rw [hstore]; simp [hsw], ?_⟩
    obtain ⟨sw, res, data, cb, hs, handle⟩ := env
    cases hsw
    cases res with
    | SUCCESS => simp [StartDataRequest, SendResponse]
    | FAIL =>
      cases hd : s.default_thumbnail_ <;> simp [StartDataRequest, SendResponse, hd]
    | ASYNC =>
      cases cb with
      | none => simp [StartDataRequest]
      | some payload =>
        cases hd : s.default_thumbnail_ <;> cases hp : hasData payload <;>
          simp [StartDataRequest, ReturnData, SendResponse, hd, hp]
  · intro hsw
    refine ⟨by rw [hstore]; simp [hsw], ?_⟩
    cases hhs : env.hs <;> simp [StartDataRequest, SendResponse, hsw, hhs]

/-- Witness for the amended C13: with the switch present the call goes to the
thumbnail store, in whatever state the object is. -/
theorem routing_follows_flag_witness :
    (StartDataRequest (fun _ => [1, 2]) init "a" 1
        ⟨true, GetStatus.FAIL, none, none, some 1, 5⟩).storeLookups =
      init.storeLookups ++ ["a"] :=
  ((routing_follows_flag (fun _ => [1, 2]) init "a" 1
    ⟨true, GetStatus.FAIL, none, none, some 1, 5⟩).2.2.1 rfl).1

/-- C14 as stated fails: with request id 7 pending and handle 5 of service 1
carrying request id 7, `ReturnData` and `OnThumbnailDataAvailable` leave
different pending sets for the same payload. -/
theorem handlers_differ_on_pending :
    GetClientData
        ({ init with pending_requests_ := {7},
                     cancelable_consumer_ := [((some 1, 5), 7)] } : Gateway).cancelable_consumer_
        (some 1) 5 = 7 ∧
    (ReturnData (fun _ => [1, 2])
        { init with pending_requests_ := {7}, cancelable_consumer_ := [((some 1, 5), 7)] }
        7 none).pending_requests_ ≠
      (OnThumbnailDataAvailable (fun _ => [1, 2])
        { init with pending_requests_ := {7}, cancelable_consumer_ := [((some 1, 5), 7)] }
        (some 1) 5 none).pending_requests_ := by
  decide

/-- C14, amended: for every state, request id `r` and payload, `ReturnData(r,
payload)` is the shared completion path of the spec, and
`OnThumbnailDataAvailable(h, payload)` with `h` carrying `r` is the same path
without the removal from the pending set.  The two send the same response,
make the same number of loader calls and leave the same default thumbnail;
the pending set after `ReturnData` is the one after
`OnThumbnailDataAvailable` with `r` erased, so the final states are equal
exactly when `r` was not pending beforehand. -/
theorem completion_handlers_agree (loader : Nat → Bytes) (s : Gateway) (r : Int)
    (hs : Option Nat) (h : Int) (payload : Option Bytes)
    (hmap : GetClientData s.cancelable_consumer_ hs h = r) :
    ReturnData loader s r payload = specCompletion loader s r payload ∧
    OnThumbnailDataAvailable loader s hs h payload =
      { specCompletion loader s r payload with pending_requests_ := s.pending_requests_ } ∧
    emitted loader s (Call.returnData r payload) =
      emitted loader s (Call.thumbnailAvailable hs h payload) ∧
    (ReturnData loader s r payload).loads =
      (OnThumbnailDataAvailable loader s hs h payload).loads ∧
    (ReturnData loader s r payload).default_thumbnail_ =
      (OnThumbnailDataAvailable loader s hs h payload).default_thumbnail_ ∧
    (ReturnData loader s r payload).pending_requests_ =
      (OnThumbnailDataAvailable loader s hs h payload).pending_requests_.erase r ∧
    (ReturnData loader s r payload = OnThumbnailDataAvailable loader s hs h payload ↔
      r ∉ s.pending_requests_) := by
  have hR : ReturnData loader s r payload = specCompletion loader s r payload := by
    rcases payload with _ | _ | ⟨b, bs⟩ <;> cases hd : s.default_thumbnail_ <;>
      simp [ReturnData, specCompletion, SendResponse, hasData, hd]
  have hT : OnThumbnailDataAvailable loader s hs h payload =
      { specCompletion loader s r payload with pending_requests_ := s.pending_requests_ } := by
    rcases payload with _ | _ | ⟨b, bs⟩ <;> cases hd : s.default_thumbnail_ <;>
      simp [OnThumbnailDataAvailable, specCompletion, SendResponse, hasData, hd, hmap]
  have hP : (specCompletion loader s r payload).pending_requests_ =
      s.pending_requests_.erase r := by
    rcases payload with _ | _ | ⟨b, bs⟩ <;> cases hd : s.default_thumbnail_ <;>
      simp [specCompletion, SendResponse, hd]
  refine ⟨hR, hT, ?_, ?_, ?_, ?_, ?_⟩
  · simp only [emitted, step]
    rw [hR, hT]
  · rw [hR, hT]
  · rw [hR, hT]
  · rw [hR, hT, hP]
  · rw [hR, hT]
    constructor
    · intro heq
      have hpend := congrArg Gateway.pending_requests_ heq
      rw [hP] at hpend
      exact Finset.erase_eq_self.mp hpend
    · intro hnot
      have hpend : (specCompletion loader s r payload).pending_requests_ =
          s.pending_requests_ := by
        rw [hP]; exact Finset.erase_eq_self.mpr hnot
      rw [← hpend]

/-- Witness for the amended C14: request 7 pending, handle 5 of service 1
carrying request id 7, an empty payload. -/
theorem completion_handlers_agree_witness :
    emitted (fun _ => [1, 2])
        { init with pending_requests_ := {7}, cancelable_consumer_ := [((some 1, 5), 7)] }
        (Call.returnData 7 (some [])) =
      emitted (fun _ => [1, 2])
        { init with pending_requests_ := {7}, cancelable_consumer_ := [((some 1, 5), 7)] }
        (Call.thumbnailAvailable (some 1) 5 (some [])) :=
  (completion_handlers_agree (fun _ => [1, 2])
    { init with pending_requests_ := {7}, cancelable_consumer_ := [((some 1, 5), 7)] }
    7 (some 1) 5 (some []) (by decide)).2.2.1

/-! The handle side channel. -/

/-- What is retrieved under a key survives every sequence of calls none of
which attaches client data under that key. -/
theorem run_consumer_other (loader : Nat → Bytes) (k : ConsumerKey) :
    ∀ (calls : List Call) (s : Gateway),
      (∀ c ∈ calls, attachesTo k c = false) →
      GetClientData (run loader s calls).cancelable_consumer_ k.1 k.2 =
        GetClientData s.cancelable_consumer_ k.1 k.2 := by
  intro calls
  induction calls with
  | nil => intro s _; rfl
  | cons c rest ih =>
    intro s hall
    have hrun : run loader s (c :: rest) = run loader (step loader s c) rest := rfl
    have hc : attachesTo k c = false := hall c (List.mem_cons_self _ _)
    rw [hrun, ih (step loader s c) (fun x hx => hall x (List.mem_cons_of_mem _ hx)),
      step_consumer]
    cases c with
    | start path r env =>
      obtain ⟨sw, res, data, cb, hs, handle⟩ := env
      cases sw
      · cases hs with
        | none => rfl
        | some p =>
          have hne : k ≠ (some p, handle) := by
            intro heq
            simp [attachesTo, heq] at hc
          simpa using getClientData_set_other s.cancelable_consumer_ (some p) handle r k hne
      · rfl
    | returnData r data => rfl
    | thumbnailAvailable hs h data => rfl

/-- C12: on the history path with a history service, `StartDataRequest(url, r)`
attaches `r` to the handle `h` it obtained, and the later
`OnThumbnailDataAvailable(h, data)` answers under request id `r`, for every
prior content of the side channel, every payload and every sequence of calls
in between that attaches nothing under the same service and handle: the
lookup returns what was stored for that handle. -/
theorem handle_lookup_returns_stored (loader : Nat → Bytes) (s : Gateway) (path : String)
    (r : Int) (env : Env) (p : Nat) (between : List Call) (data : Option Bytes)
    (hswitch : env.HasSwitch = false) (hhs : env.hs = some p)
    (hother : ∀ c ∈ between, attachesTo (some p, env.handle) c = false) :
    GetClientData (StartDataRequest loader s path r env).cancelable_consumer_
      (some p) env.handle = r ∧
    answersFor (run loader (StartDataRequest loader s path r env) between)
      (Call.thumbnailAvailable (some p) env.handle data) = r ∧
    (∃ d, emitted loader (run loader (StartDataRequest loader s path r env) between)
      (Call.thumbnailAvailable (some p) env.handle data) = [⟨r, d⟩]) := by
  have h1 : GetClientData (StartDataRequest loader s path r env).cancelable_consumer_
      (some p) env.handle = r := by
    simp only [StartDataRequest, hswitch, hhs]
    exact getClientData_set_same _ _ _ _
  have h2 : GetClientData
      (run loader (StartDataRequest loader s path r env) between).cancelable_consumer_
      (some p) env.handle = r := by
    have hkeep := run_consumer_other loader (some p, env.handle) between
      (StartDataRequest loader s path r env) hother
    exact hkeep.trans h1
  refine ⟨h1, h2, ?_⟩
  obtain ⟨d, hd⟩ := step_responses loader
    (run loader (StartDataRequest loader s path r env) between)
    (Call.thumbnailAvailable (some p) env.handle data)
  refine ⟨d, ?_⟩
  simp only [] at hd
  rw [h2] at hd
  simp [emitted, hd]

/-- Witness for C12: request 7 gets handle 5 of service 1; before its
completion request 8 gets handle 6 and request 9 goes to the store. -/
theorem handle_lookup_returns_stored_witness :
    answersFor (run (fun _ => [1, 2])
        (StartDataRequest (fun _ => [1, 2]) init "a" 7
          ⟨false, GetStatus.SUCCESS, none, none, some 1, 5⟩)
        [Call.start "b" 8 ⟨false, GetStatus.SUCCESS, none, none, some 1, 6⟩,
         Call.start "c" 9 ⟨true, GetStatus.ASYNC, none, none, none, 0⟩])
      (Call.thumbnailAvailable (some 1) 5 none) = 7 :=
  (handle_lookup_returns_stored (fun _ => [1, 2]) init "a" 7
    ⟨false, GetStatus.SUCCESS, none, none, some 1, 5⟩ 1
    [Call.start "b" 8 ⟨false, GetStatus.SUCCESS, none, none, some 1, 6⟩,
     Call.start "c" 9 ⟨true, GetStatus.ASYNC, none, none, none, 0⟩]
    none rfl rfl (by decide)).2.1

/-! The pending set over whole executions. -/

/-- The pending set after one call, in any state. -/
theorem step_pending (loader : Nat → Bytes) (s : Gateway) (c : Call) :
    (step loader s c).pending_requests_ =
      (match c with
       | Call.start _ r env =>
         if env.HasSwitch then
           match env.res, env.callback with
           | GetStatus.ASYNC, none => insert r s.pending_requests_
           | GetStatus.ASYNC, some _ => (insert r s.pending_requests_).erase r
           | _, _ => s.pending_requests_
         else s.pending_requests_
       | Call.returnData r _ => s.pending_requests_.erase r
       | Call.thumbnailAvailable _ _ _ => s.pending_requests_) := by
  cases c with
  | start path r env =>
    obtain ⟨sw, res, data, cb, hs, handle⟩ := env
    cases sw
    · cases hs <;> simp [step, StartDataRequest, SendResponse]
    · cases res with
      | SUCCESS => simp [step, StartDataRequest, SendResponse]
      | FAIL =>
        cases hd : s.default_thumbnail_ <;> simp [step, StartDataRequest, SendResponse, hd]
      | ASYNC =>
        cases cb with
        | none => simp [step, StartDataRequest]
        | some payload =>
          cases hd : s.default_thumbnail_ <;> cases hp : hasData payload <;>
            simp [step, StartDataRequest, ReturnData, SendResponse, hd, hp]
  | returnData r data =>
    cases hd : s.default_thumbnail_ <;> cases hp : hasData data <;>
      simp [step, ReturnData, SendResponse, hd, hp]
  | thumbnailAvailable hs h data =>
    cases hd : s.default_thumbnail_ <;> cases hp : hasData data <;>
      simp [step, OnThumbnailDataAvailable, SendResponse, hd, hp]

/-- The history lookups issued after one call, in any state. -/
theorem step_historyLookups (loader : Nat → Bytes) (s : Gateway) (c : Call) :
    (step loader s c).historyLookups =
      (match c with
       | Call.start path _ env =>
         if env.HasSwitch then s.historyLookups
         else
           match env.hs with
           | some p => s.historyLookups ++ [(p, path)]
           | none => s.historyLookups
       | _ => s.historyLookups) := by
  cases c with
  | start path r env =>
    obtain ⟨sw, res, data, cb, hs, handle⟩ := env
    cases sw
    · cases hs <;> simp [step, StartDataRequest, SendResponse]
    · cases res with
      | SUCCESS => simp [step, StartDataRequest, SendResponse]
      | FAIL =>
        cases hd : s.default_thumbnail_ <;> simp [step, StartDataRequest, SendResponse, hd]
      | ASYNC =>
        cases cb with
        | none => simp [step, StartDataRequest]
        | some payload =>
          cases hd : s.default_thumbnail_ <;> cases hp : hasData payload <;>
            simp [step, StartDataRequest, ReturnData, SendResponse, hd, hp]
  | returnData r data =>
    cases hd : s.default_thumbnail_ <;> cases hp : hasData data <;>
      simp [step, ReturnData, SendResponse, hd, hp]
  | thumbnailAvailable hs h data =>
    cases hd : s.default_thumbnail_ <;> cases hp : hasData data <;>
      simp [step, OnThumbnailDataAvailable, SendResponse, hd, hp]

/-- With the history path selected throughout, an empty pending set stays empty. -/
theorem run_history_pending (loader : Nat → Bytes) :
    ∀ (calls : List Call) (s : Gateway),
      historySelected calls = true → s.pending_requests_ = ∅ →
      (run loader s calls).pending_requests_ = ∅ := by
  intro calls
  induction calls with
  | nil => intro s _ hs; simpa [run] using hs
  | cons c rest ih =>
    intro s hsel hs
    have hrun : run loader s (c :: rest) = run loader (step loader s c) rest := rfl
    have hsel2 : historySelected rest = true := by
      simp [historySelected] at hsel ⊢
      exact hsel.2
    rw [hrun]
    apply ih _ hsel2
    rw [step_pending]
    cases c with
    | start path r env =>
      have hsw : env.HasSwitch = false := by
        simp [historySelected] at hsel
        exact hsel.1
      simp [hsw, hs]
    | returnData r data => simp [hs]
    | thumbnailAvailable hs2 h data => simp [hs]

/-- C16: with the history path selected for the whole life of the object no
operation changes the pending set: the history branch of `StartDataRequest`
never inserts and `OnThumbnailDataAvailable` never erases.  The set is
therefore empty in every reachable state, and the destructor hands the empty
set to `CancelPendingRequests`, whatever history lookups are in flight. -/
theorem history_path_never_pending (loader : Nat → Bytes) :
    (∀ s path r env, env.HasSwitch = false →
      (StartDataRequest loader s path r env).pending_requests_ = s.pending_requests_) ∧
    (∀ s hs h data,
      (OnThumbnailDataAvailable loader s hs h data).pending_requests_ =
        s.pending_requests_) ∧
    (∀ calls, historySelected calls = true →
      (run loader init calls).pending_requests_ = ∅ ∧
      destructor (run loader init calls) = ∅ ∧
      (∀ r, r ∉ destructor (run loader init calls))) := by
  refine ⟨?_, ?_, ?_⟩
  · intro s path r env hsw
    have h := step_pending loader s (Call.start path r env)
    simpa [step, hsw] using h
  · intro s hs h data
    exact step_pending loader s (Call.thumbnailAvailable hs h data)
  · intro calls hsel
    have h := run_history_pending loader calls init hsel rfl
    refine ⟨h, h, ?_⟩
    intro r
    simp [destructor, h]

/-- Witness for C16: a history lookup for request 7 is in flight under handle 5
and the destructor still hands over the empty set. -/
theorem history_path_never_pending_witness :
    (run (fun _ => [1, 2]) init
      [Call.start "a" 7 ⟨false, GetStatus.SUCCESS, none, none, some 1, 5⟩]).historyLookups =
      [(1, "a")] ∧
    destructor (run (fun _ => [1, 2]) init
      [Call.start "a" 7 ⟨false, GetStatus.SUCCESS, none, none, some 1, 5⟩]) = ∅ :=
  ⟨by decide,
    ((history_path_never_pending (fun _ => [1, 2])).2.2
      [Call.start "a" 7 ⟨false, GetStatus.SUCCESS, none, none, some 1, 5⟩] (by decide)).2.1⟩

/-- Erasing from a duplicate-free list erases from its set of elements. -/
theorem toFinset_erase_nodup (l : List Int) (a : Int) (hl : l.Nodup) :
    (l.erase a).toFinset = l.toFinset.erase a := by
  ext x
  simp [hl.mem_erase_iff]

/-- One call keeps the pending set equal to the set of owed store lookups, as
long as the call does not start a request under an id that is still owed. -/
theorem step_outstanding (loader : Nat → Bytes) (s : Gateway) (owed : List Int) (c : Call)
    (hpend : s.pending_requests_ = owed.toFinset) (hnodup : owed.Nodup)
    (hfresh : ∀ path r env, c = Call.start path r env → r ∉ owed) :
    (step loader s c).pending_requests_ = (owedAfterCall owed c).toFinset ∧
    (owedAfterCall owed c).Nodup := by
  rw [step_pending]
  cases c with
  | start path r env =>
    have hr : r ∉ owed := hfresh path r env rfl
    have hr2 : r ∉ s.pending_requests_ := by rw [hpend]; simpa using hr
    obtain ⟨sw, res, data, cb, hs, handle⟩ := env
    cases sw
    · exact ⟨by simpa [owedAfterCall] using hpend, by simpa [owedAfterCall] using hnodup⟩
    · cases res with
      | SUCCESS =>
        exact ⟨by simpa [owedAfterCall] using hpend, by simpa [owedAfterCall] using hnodup⟩
      | FAIL =>
        exact ⟨by simpa [owedAfterCall] using hpend, by simpa [owedAfterCall] using hnodup⟩
      | ASYNC =>
        cases cb with
        | none =>
          refine ⟨?_, ?_⟩
          · simp [owedAfterCall, hpend]
          · simpa [owedAfterCall] using ⟨hr, hnodup⟩
        | some payload =>
          refine ⟨?_, ?_⟩
          · simp only [owedAfterCall]
            rw [Finset.erase_insert hr2]
            exact hpend
          · simpa [owedAfterCall] using hnodup
  | returnData r data =>
    refine ⟨?_, ?_⟩
    · simp only [owedAfterCall]
      rw [toFinset_erase_nodup owed r hnodup, hpend]
    · exact hnodup.erase r
  | thumbnailAvailable hs h data =>
    exact ⟨hpend, hnodup⟩

/-- Over a sequence of calls with unique request ids the pending set stays
equal to the set of owed store lookups. -/
theorem run_outstanding (loader : Nat → Bytes) :
    ∀ (calls : List Call) (s : Gateway) (owed : List Int),
      s.pending_requests_ = owed.toFinset → owed.Nodup →
      uniqueIdsFrom owed calls = true →
      (run loader s calls).pending_requests_ = (outstandingFrom owed calls).toFinset ∧
      (outstandingFrom owed calls).Nodup := by
  intro calls
  induction calls with
  | nil => intro s owed hpend hnodup _; exact ⟨hpend, hnodup⟩
  | cons c rest ih =>
    intro s owed hpend hnodup huniq
    have hrun : run loader s (c :: rest) = run loader (step loader s c) rest := rfl
    have hout : outstandingFrom owed (c :: rest) =
        outstandingFrom (owedAfterCall owed c) rest := rfl
    simp only [uniqueIdsFrom, Bool.and_eq_true] at huniq
    obtain ⟨hhead, htail⟩ := huniq
    have hfresh : ∀ path r env, c = Call.start path r env → r ∉ owed := by
      intro path r env hc
      subst hc
      simpa using hhead
    obtain ⟨h1, h2⟩ := step_outstanding loader s owed c hpend hnodup hfresh
    rw [hrun, hout]
    exact ih (step loader s c) (owedAfterCall owed c) h1 h2 htail

/-- With the thumbnail store selected throughout, no history lookup is issued. -/
theorem run_store_historyLookups (loader : Nat → Bytes) :
    ∀ (calls : List Call) (s : Gateway),
      storeSelected calls = true →
      (run loader s calls).historyLookups = s.historyLookups := by
  intro calls
  induction calls with
  | nil => intro s _; rfl
  | cons c rest ih =>
    intro s hsel
    have hrun : run loader s (c :: rest) = run loader (step loader s c) rest := rfl
    have hsel2 : storeSelected rest = true := by
      simp [storeSelected] at hsel ⊢
      exact hsel.2
    rw [hrun, ih _ hsel2, step_historyLookups]
    cases c with
    | start path r env =>
      have hsw : env.HasSwitch = true := by
        simp [storeSelected] at hsel
        exact hsel.1
      simp [hsw]
    | returnData r data => rfl
    | thumbnailAvailable hs h data => rfl

/-- C11: with the thumbnail store selected and request ids unique among
concurrently outstanding requests, in every reachable state the pending set
is exactly the set of ids whose lookup took the ASYNC branch and whose
`ReturnData` has not run yet.  No history lookup has been issued, so these
are all the outstanding asynchronous requests, and the set the destructor
hands to `CancelPendingRequests` is exactly that set: none missing, none
already completed. -/
theorem pending_is_outstanding (loader : Nat → Bytes) (calls : List Call)
    (hstore : storeSelected calls = true)
    (hunique : uniqueIdsFrom [] calls = true) :
    (run loader init calls).pending_requests_ = (outstandingFrom [] calls).toFinset ∧
    destructor (run loader init calls) = (outstandingFrom [] calls).toFinset ∧
    (∀ r, r ∈ destructor (run loader init calls) ↔ r ∈ outstandingFrom [] calls) ∧
    (outstandingFrom [] calls).Nodup ∧
    (run loader init calls).historyLookups = [] := by
  obtain ⟨h1, h2⟩ := run_outstanding loader calls init [] rfl List.nodup_nil hunique
  refine ⟨h1, h1, ?_, h2, ?_⟩
  · intro r
    simp [destructor, h1]
  · exact run_store_historyLookups loader calls init hstore

/-- Witness for C11: requests 1 and 2 turn ASYNC, 3 is a hit, then the
callback for 1 runs; only 2 is handed to `CancelPendingRequests`. -/
theorem pending_is_outstanding_witness :
    outstandingFrom []
      [Call.start "a" 1 ⟨true, GetStatus.ASYNC, none, none, none, 0⟩,
       Call.start "b" 2 ⟨true, GetStatus.ASYNC, none, none, none, 0⟩,
       Call.start "c" 3 ⟨true, GetStatus.SUCCESS, some [4], none, none, 0⟩,
       Call.returnData 1 (some [5])] = [2] ∧
    destructor (run (fun _ => [1, 2]) init
      [Call.start "a" 1 ⟨true, GetStatus.ASYNC, none, none, none, 0⟩,
       Call.start "b" 2 ⟨true, GetStatus.ASYNC, none, none, none, 0⟩,
       Call.start "c" 3 ⟨true, GetStatus.SUCCESS, some [4], none, none, 0⟩,
       Call.returnData 1 (some [5])]) =
    (outstandingFrom []
      [Call.start "a" 1 ⟨true, GetStatus.ASYNC, none, none, none, 0⟩,
       Call.start "b" 2 ⟨true, GetStatus.ASYNC, none, none, none, 0⟩,
       Call.start "c" 3 ⟨true, GetStatus.SUCCESS, some [4], none, none, 0⟩,
       Call.returnData 1 (some [5])]).toFinset :=
  ⟨by decide,
    (pending_is_outstanding (fun _ => [1, 2])
      [Call.start "a" 1 ⟨true, GetStatus.ASYNC, none, none, none, 0⟩,
       Call.start "b" 2 ⟨true, GetStatus.ASYNC, none, none, none, 0⟩,
       Call.start "c" 3 ⟨true, GetStatus.SUCCESS, some [4], none, none, 0⟩,
       Call.returnData 1 (some [5])] (by decide) (by decide)).2.1⟩

end DOMUIThumbnailSource
